import Mathlib

/-!
Verification development for the gciso library: a shallow embedding of the
byte-range accessors (`IsoFile._readFile` / `IsoFile._writeFile`), the
cursored file wrapper (`IsoInternalFileWrapper`), the FST decoder
(`IsoFile._readFst` / `IsoFile._readDirectory`) and the DOL section layout
(`DolFile`), together with theorems about them.

Conventions of the embedding:
* the backing container (`self.file`) is a `List Nat` of bytes, offsets that
  user code may pass are `Int` (Python integers can be negative), decoded
  header fields are `Nat` (unpacked as unsigned big-endian);
* a Python exception is an `Except PyError` error value; distinct Python
  exception classes are distinct `PyError` constructors;
* Python loops and recursion without a structural bound are given explicit
  fuel; running out of fuel (`PyError.fuelExhausted`) models nontermination
  or hitting the interpreter's recursion limit, and every theorem about a
  concrete input supplies ample fuel.
-/

/-- The Python exceptions (and exception-like outcomes) the embedded code can
produce. `formatError` is never raised by the code itself; it exists so that
claims that talk about a dedicated format-error outcome can be stated.
`nonTermination` models `IsoFile._readString` looping forever when no NUL
byte follows the start offset, and `fuelExhausted` models exhausting the
recursion/loop fuel. -/
inductive PyError where
  | indexError
  | valueError
  | typeError
  | attributeError
  | structError
  | formatError
  | nonTermination
  | fuelExhausted
deriving DecidableEq, Repr

deriving instance DecidableEq for Except

/-- `file.seek(pos); file.read(count)` on the backing container: returns the
bytes at positions `pos, pos+1, ...`, at most `count` of them (a read past
the end of the file returns fewer bytes, like Python's `read`). -/
def fileReadAt (c : List Nat) (pos count : Nat) : List Nat :=
  (c.drop pos).take count

/-- `file.seek(pos); file.write(data)` on the backing container: overwrites
the bytes at `pos, ..., pos + len(data) - 1`. Seeking past the end of the
file and writing there zero-fills the gap, like a POSIX file. -/
def fileWriteAt (c : List Nat) (pos : Nat) (data : List Nat) : List Nat :=
  c.take pos ++ List.replicate (pos - c.length) 0 ++ data ++ c.drop (pos + data.length)

namespace IsoFile

/-- The effective count of `IsoFile._readFile`: `count` itself when given and
nonnegative, otherwise `fileSize - offset` ("read to the end", the
`count == None or count < 0` branch). -/
def effCount (fileSize : Nat) (offset : Int) (count : Option Int) : Int :=
  match count with
  | none => (fileSize : Int) - offset
  | some k => if k < 0 then (fileSize : Int) - offset else k

/-- `IsoFile._readFile(fileOffset, fileSize, offset, count)`: bounds-checked
read of `count` bytes at `offset` inside the region
`[fileOffset, fileOffset + fileSize)` of the container. `count = none`
models the `count=None` / omitted argument; a negative count also means
"read to the end of the region". -/
def readFile (c : List Nat) (fileOffset fileSize : Nat) (offset : Int)
    (count : Option Int) : Except PyError (List Nat) :=
  if offset < 0 then .error .indexError
  else if (fileSize : Int) ≤ offset then .error .indexError
  else if (fileSize : Int) < offset + effCount fileSize offset count then .error .valueError
  else .ok (fileReadAt c (fileOffset + offset.toNat) (effCount fileSize offset count).toNat)

/-- `IsoFile._writeFile(fileOffset, fileSize, offset, data)`: bounds-checked
write of `data` at `offset` inside the region
`[fileOffset, fileOffset + fileSize)`. Returns the updated container
together with the number of bytes written (`file.write`'s return value).
The `isinstance(data, bytes)` check is subsumed by the type of `data`. -/
def writeFile (c : List Nat) (fileOffset fileSize : Nat) (offset : Int)
    (data : List Nat) : Except PyError (List Nat × Nat) :=
  if offset < 0 then .error .indexError
  else if (fileSize : Int) ≤ offset then .error .indexError
  else if (fileSize : Int) < offset + data.length then .error .valueError
  else .ok (fileWriteAt c (fileOffset + offset.toNat) data, data.length)

/-- `IsoFile.writeFile(path, o, b)` followed by `IsoFile.readFile(path, o, len(b))`
on the same registered region: the round-trip of the spec. -/
def writeThenRead (c : List Nat) (fileOffset fileSize : Nat) (offset : Int)
    (data : List Nat) : Except PyError (List Nat) :=
  match writeFile c fileOffset fileSize offset data with
  | .error e => .error e
  | .ok (c', _) => readFile c' fileOffset fileSize offset (some data.length)

end IsoFile

/-- The state of an `IsoInternalFileWrapper`: the wrapped region
`[offset, offset + size)` of the container and the movable cursor. -/
structure IsoInternalFileWrapper where
  cursor : Int
  offset : Nat
  size : Nat
deriving DecidableEq, Repr

namespace IsoInternalFileWrapper

/-- `IsoInternalFileWrapper.read(size)`: delegates to `IsoFile._readFile`
with the cursor as offset, then advances the cursor by the number of bytes
read. If the read raises, the exception propagates before the cursor
assignment runs, so the wrapper is returned unchanged. -/
def read (c : List Nat) (w : IsoInternalFileWrapper) (size : Option Int) :
    Except PyError (List Nat) × IsoInternalFileWrapper :=
  match IsoFile.readFile c w.offset w.size w.cursor size with
  | .error e => (.error e, w)
  | .ok data => (.ok data, { w with cursor := w.cursor + data.length })

/-- The body of `IsoInternalFileWrapper.write(data)`: delegates to
`IsoFile._writeFile` with the cursor as offset, then advances the cursor by
`len(data)`. The result value is `_writeFile`'s return (bytes written) plus
the updated container. As in the source, the cursor is only updated after
`_writeFile` has returned, so a raising write leaves the wrapper unchanged.
(Note the source's `def write(data):` is missing the `self` parameter, so in
Python every call fails with a `TypeError` before this body runs; the body
embedded here is the body as written.) -/
def write (c : List Nat) (w : IsoInternalFileWrapper) (data : List Nat) :
    Except PyError (Nat × List Nat) × IsoInternalFileWrapper :=
  match IsoFile.writeFile c w.offset w.size w.cursor data with
  | .error e => (.error e, w)
  | .ok (c', ret) => (.ok (ret, c'), { w with cursor := w.cursor + data.length })

end IsoInternalFileWrapper

/-- The `IsoFile.files` registry: an insertion-ordered mapping from paths
(byte strings) to `(offset, size)` pairs, modelling `collections.OrderedDict`. -/
abbrev Registry := List (List Nat × (Nat × Nat))

namespace Registry

/-- `files[path] = (offset, size)` on an `OrderedDict`: an existing key keeps
its position and gets the new value, a new key is appended at the end. -/
def set (r : Registry) (k : List Nat) (v : Nat × Nat) : Registry :=
  match r with
  | [] => [(k, v)]
  | (k', v') :: rest => if k' = k then (k, v) :: rest else (k', v') :: set rest k v

/-- `files[path]` lookup (`None` for a missing key). -/
def get (r : Registry) (k : List Nat) : Option (Nat × Nat) :=
  match r with
  | [] => none
  | (k', v') :: rest => if k' = k then some v' else get rest k

end Registry

namespace IsoFile

/-- One big-endian `>I` field: `file.seek(pos); struct.unpack(">I", file.read(4))`.
A short read makes `struct.unpack` raise (`struct.error`). -/
def readU32BE (c : List Nat) (pos : Nat) : Except PyError Nat :=
  match c.drop pos with
  | b0 :: b1 :: b2 :: b3 :: _ => .ok (((b0 * 256 + b1) * 256 + b2) * 256 + b3)
  | _ => .error .structError

/-- The four fields of the FST entry at byte position `pos`
(`isDir` flag byte, 3-byte big-endian name offset, 4-byte offset, 4-byte
length), exactly as `IsoFile._readDirectory` reads them: `read(1)[0]` on an
empty read raises `IndexError`, and a short `struct.unpack` read raises
`struct.error`. -/
def readFstEntry (c : List Nat) (pos : Nat) :
    Except PyError (Nat × Nat × Nat × Nat) :=
  match c.drop pos with
  | b0 :: b1 :: b2 :: b3 :: b4 :: b5 :: b6 :: b7 :: b8 :: b9 :: b10 :: b11 :: _ =>
    .ok (b0, (b1 * 256 + b2) * 256 + b3,
         ((b4 * 256 + b5) * 256 + b6) * 256 + b7,
         ((b8 * 256 + b9) * 256 + b10) * 256 + b11)
  | [] => .error .indexError
  | _ => .error .structError

/-- `IsoFile._readString(offset)`: the bytes from `offset` up to the first
NUL byte. When no NUL byte follows (the file ends first), the Python loop
never terminates, which the embedding reports as `nonTermination`. -/
def readString (c : List Nat) (pos : Nat) : Except PyError (List Nat) :=
  if (c.drop pos).contains 0 then .ok ((c.drop pos).takeWhile (· ≠ 0))
  else .error .nonTermination

mutual

/-- `IsoFile._readDirectory(path, index)` (together with `readDirLoop` for
its `while i < length` loop): decodes the FST entry at `index`; a directory
entry loops its subtree and returns its `length` field, a file entry records
`path + name` (with one leading `/` stripped; `filePath[0]` on an empty path
raises `IndexError`) in the registry and returns 1. The registry threads
through in place of the mutated `self.files`. -/
def readDirectory (c : List Nat) (fstOffset stringTableOffset : Nat) :
    Nat → Registry → List Nat → Nat → Except PyError (Registry × Nat)
  | 0, _, _, _ => .error .fuelExhausted
  | fuel + 1, files, path, index =>
    match readFstEntry c (fstOffset + 0xC * index) with
    | .error e => .error e
    | .ok (isDir, fileNameOffset, offset, length) =>
      match (if index = 0 then .ok [] else readString c (stringTableOffset + fileNameOffset) :
          Except PyError (List Nat)) with
      | .error e => .error e
      | .ok name =>
        if isDir ≠ 0 then
          match readDirLoop c fstOffset stringTableOffset fuel files
              (path ++ name ++ [47]) (index + 1) length with
          | .error e => .error e
          | .ok (files', _) => .ok (files', length)
        else
          match path ++ name with
          | [] => .error .indexError
          | ch :: rest =>
            let filePath := if ch = 47 then rest else ch :: rest
            .ok (files.set filePath (offset, length), 1)

/-- The `while i < length: i += self._readDirectory(...)` loop of
`IsoFile._readDirectory`. Returns the registry and the final loop index. -/
def readDirLoop (c : List Nat) (fstOffset stringTableOffset : Nat) :
    Nat → Registry → List Nat → Nat → Nat → Except PyError (Registry × Nat)
  | 0, _, _, _, _ => .error .fuelExhausted
  | fuel + 1, files, path, i, length =>
    if i < length then
      match readDirectory c fstOffset stringTableOffset fuel files path i with
      | .error e => .error e
      | .ok (files', consumed) =>
        readDirLoop c fstOffset stringTableOffset fuel files' path (i + consumed) length
    else .ok (files, i)

end

/-- `IsoFile._readFst()`: reads `numFstEntries` from the root entry's length
field at `fstOffset + 8`, computes the string table offset and decodes the
tree from entry 0. Takes the registry as it is when `_readFst` runs (the
synthesized header entries are already in it) and returns the updated
registry with `_readDirectory`'s return value. -/
def readFst (c : List Nat) (fstOffset : Nat) (files : Registry) (fuel : Nat) :
    Except PyError (Registry × Nat) :=
  match readU32BE c (fstOffset + 8) with
  | .error e => .error e
  | .ok numFstEntries =>
    readDirectory c fstOffset (fstOffset + numFstEntries * 0xC) fuel files [] 0

end IsoFile

namespace DolFile

/-- `DolFile.SectionType`: the kind of a DOL section. -/
inductive SectionType where
  | text
  | data
deriving DecidableEq, Repr

/-- `DolFile.Section`: a section of the DOL with its kind-local index, file
offset, memory address and size, plus the derived end offset/address
computed in the constructor. Python compares sections by object identity;
within one decoded `DolFile` all sections differ in `(type, index)`, so
structural equality is an exact model. -/
structure Section where
  index : Nat
  type : SectionType
  dolOffset : Nat
  endDolOffset : Nat
  memAddress : Nat
  endMemAddress : Nat
  size : Nat
deriving DecidableEq, Repr

/-- `DolFile.Section.__init__`. -/
def Section.make (index : Nat) (type : SectionType) (dolOffset memAddress size : Nat) :
    Section :=
  { index := index, type := type, dolOffset := dolOffset,
    endDolOffset := dolOffset + size, memAddress := memAddress,
    endMemAddress := memAddress + size, size := size }

/-- `DolFile.Section.isBefore(other)`: the other section starts exactly
where this one ends, in memory and in the DOL file. -/
def Section.isBefore (s other : Section) : Bool :=
  s.memAddress + s.size == other.memAddress && s.dolOffset + s.size == other.dolOffset

/-- `DolFile._zipSections`: builds `Section`s from the per-slot offset,
memory-address and size arrays, stopping at the first slot with a zero in
any of the three. -/
def zipSections (type : SectionType) :
    Nat → List Nat → List Nat → List Nat → List Section
  | i, offset :: offsets, memAddress :: memAddresses, size :: sizes =>
    if offset = 0 ∨ memAddress = 0 ∨ size = 0 then []
    else Section.make i type offset memAddress size ::
      zipSections type (i + 1) offsets memAddresses sizes
  | _, _, _, _ => []

end DolFile

/-- The decoded `DolFile`: the text and data sections, their concatenation
`sections`, and the two derived orderings. -/
structure DolFile where
  textSections : List DolFile.Section
  dataSections : List DolFile.Section
  sections : List DolFile.Section
  sectionsDolOrder : List DolFile.Section
  sectionsMemOrder : List DolFile.Section
  bssMemAddress : Nat
  bssSize : Nat
  entryPoint : Nat
deriving DecidableEq, Repr

namespace DolFile

/-- The tail of `DolFile.__init__` starting from the unpacked header arrays
(6 text and 10 data slots of file offsets, memory addresses and sizes):
builds the section lists and the two sorted orders. Python's `sorted` is a
stable sort, whose result is uniquely determined by the comparison key and
the input order; `List.insertionSort` with the same key is that stable sort. -/
def make (textOffsets textMemAddresses textSizes dataOffsets dataMemAddresses dataSizes :
    List Nat) (bssMemAddress bssSize entryPoint : Nat) : DolFile :=
  let textSections := zipSections .text 0 textOffsets textMemAddresses textSizes
  let dataSections := zipSections .data 0 dataOffsets dataMemAddresses dataSizes
  let sections := textSections ++ dataSections
  { textSections := textSections, dataSections := dataSections,
    sections := sections,
    sectionsDolOrder := sections.insertionSort (fun a b => a.dolOffset ≤ b.dolOffset),
    sectionsMemOrder := sections.insertionSort (fun a b => a.memAddress ≤ b.memAddress),
    bssMemAddress := bssMemAddress, bssSize := bssSize, entryPoint := entryPoint }

/-- `DolFile.getSectionByDolOffset(dolOffset)`: the first section (in
`sections` order) whose half-open DOL-offset interval contains the value. -/
def getSectionByDolOffset (d : DolFile) (dolOffset : Int) : Option Section :=
  d.sections.find? (fun s =>
    0 ≤ dolOffset - (s.dolOffset : Int) ∧ dolOffset - (s.dolOffset : Int) < s.size)

/-- `DolFile.getSectionByMemAddress(memAddress)`: the first section (in
`sections` order) whose half-open memory interval contains the value. -/
def getSectionByMemAddress (d : DolFile) (memAddress : Int) : Option Section :=
  d.sections.find? (fun s =>
    0 ≤ memAddress - (s.memAddress : Int) ∧ memAddress - (s.memAddress : Int) < s.size)

/-- Python's `list.index(x)`: the position of the first element equal to
`x`, raising `ValueError` when absent. -/
def listIndex (l : List Section) (s : Section) : Except PyError Nat :=
  if s ∈ l then .ok (l.indexOf s) else .error .valueError

/-- `DolFile.isMappedContiguous(dolOffsetStart, dolOffsetEnd)`, fuelled.
Mirrors the source exactly, including the lookup of `memNext` in
`sectionsDolOrder` (dolfile.py line 236) and the unguarded attribute access
on the result of `getSectionByDolOffset` (an `AttributeError` on `None`).
Indexing past the end of a list raises `IndexError`. -/
def isMappedContiguous (d : DolFile) :
    Nat → Int → Int → Except PyError Bool
  | 0, _, _ => .error .fuelExhausted
  | fuel + 1, dolOffsetStart, dolOffsetEnd =>
    match getSectionByDolOffset d dolOffsetStart with
    | none => .error .attributeError
    | some s =>
      if dolOffsetEnd ≤ (s.endDolOffset : Int) then .ok true
      else
        match listIndex d.sectionsDolOrder s, listIndex d.sectionsMemOrder s with
        | .error e, _ => .error e
        | .ok _, .error e => .error e
        | .ok dolIndex, .ok memIndex =>
          match d.sectionsDolOrder[dolIndex + 1]? with
          | none => .error .indexError
          | some dolNext =>
            match d.sectionsDolOrder[memIndex + 1]? with
            | none => .error .indexError
            | some memNext =>
              if dolNext = memNext ∧ s.isBefore dolNext = true then
                isMappedContiguous d fuel (dolNext.dolOffset : Int) dolOffsetEnd
              else .ok false

end DolFile

theorem fileReadAt_length (c : List Nat) (p n : Nat) (h : p + n ≤ c.length) :
    (fileReadAt c p n).length = n := by
  simp only [fileReadAt, List.length_take, List.length_drop]
  omega

theorem fileWriteAt_length (c : List Nat) (p : Nat) (data : List Nat)
    (h : p + data.length ≤ c.length) : (fileWriteAt c p data).length = c.length := by
  simp only [fileWriteAt, List.length_append, List.length_take, List.length_replicate,
    List.length_drop]
  omega

theorem fileWriteAt_readAt (c : List Nat) (p : Nat) (data : List Nat)
    (h : p + data.length ≤ c.length) :
    fileReadAt (fileWriteAt c p data) p data.length = data := by
  have hp : p ≤ c.length := by omega
  have hz : p - c.length = 0 := by omega
  have hlen : (c.take p).length = p := by
    simp [List.length_take]; omega
  simp only [fileWriteAt, hz, List.replicate_zero, List.append_nil, fileReadAt]
  rw [List.append_assoc, List.drop_left' hlen, List.take_left' rfl]

/-- C5: `read(localOffset, count)` on a region of extent `fileSize` fails
`IndexError` exactly when `localOffset < 0` or `localOffset ≥ fileSize`;
for `count ≥ 0` it fails `ValueError` exactly when
`localOffset + count > fileSize` and otherwise returns exactly `count` bytes
of the region; for `count` negative, `None` or omitted it returns exactly
the remaining `fileSize - localOffset` bytes from `localOffset` on. -/
theorem c5_read_semantics (c : List Nat) (fileOffset fileSize : Nat) (offset : Int)
    (hreg : fileOffset + fileSize ≤ c.length) :
    (∀ count, IsoFile.readFile c fileOffset fileSize offset count = .error .indexError ↔
      (offset < 0 ∨ (fileSize : Int) ≤ offset))
    ∧ (∀ k : Int, 0 ≤ offset → offset < (fileSize : Int) → 0 ≤ k →
        ((IsoFile.readFile c fileOffset fileSize offset (some k) = .error .valueError ↔
          (fileSize : Int) < offset + k)
        ∧ (offset + k ≤ (fileSize : Int) →
            IsoFile.readFile c fileOffset fileSize offset (some k) =
              .ok (fileReadAt c (fileOffset + offset.toNat) k.toNat)
            ∧ (fileReadAt c (fileOffset + offset.toNat) k.toNat).length = k.toNat)))
    ∧ (∀ count, 0 ≤ offset → offset < (fileSize : Int) →
        (count = none ∨ ∃ k, count = some k ∧ k < 0) →
        IsoFile.readFile c fileOffset fileSize offset count =
          .ok (fileReadAt c (fileOffset + offset.toNat) (fileSize - offset.toNat))
        ∧ (fileReadAt c (fileOffset + offset.toNat) (fileSize - offset.toNat)).length
          = fileSize - offset.toNat) := by
  refine ⟨?_, ?_, ?_⟩
  · intro count
    by_cases h1 : offset < 0
    · simp [IsoFile.readFile, h1]
    · by_cases h2 : (fileSize : Int) ≤ offset
      · simp [IsoFile.readFile, h1, h2]
      · simp only [IsoFile.readFile, if_neg h1, if_neg h2]
        constructor
        · intro h
          exfalso
          revert h
          split <;> simp
        · intro h
          omega
  · intro k h0 h1 hk
    have hno : ¬ offset < 0 := by omega
    have hno2 : ¬ (fileSize : Int) ≤ offset := by omega
    have heff : IsoFile.effCount fileSize offset (some k) = k := by
      simp [IsoFile.effCount, not_lt.mpr hk]
    constructor
    · simp only [IsoFile.readFile, if_neg hno, if_neg hno2, heff]
      constructor
      · intro h
        by_contra hc
        rw [if_neg hc] at h
        exact Except.noConfusion h
      · intro h
        rw [if_pos h]
    · intro hle
      have hno3 : ¬ (fileSize : Int) < offset + k := by omega
      constructor
      · simp only [IsoFile.readFile, if_neg hno, if_neg hno2, heff, if_neg hno3]
      · exact fileReadAt_length _ _ _ (by omega)
  · intro count h0 h1 hneg
    have hno : ¬ offset < 0 := by omega
    have hno2 : ¬ (fileSize : Int) ≤ offset := by omega
    have heff : IsoFile.effCount fileSize offset count = (fileSize : Int) - offset := by
      rcases hneg with h | ⟨k, hk, hkneg⟩
      · simp [IsoFile.effCount, h]
      · simp [IsoFile.effCount, hk, hkneg]
    have hno3 : ¬ (fileSize : Int) < offset + ((fileSize : Int) - offset) := by omega
    have htn : ((fileSize : Int) - offset).toNat = fileSize - offset.toNat := by omega
    constructor
    · simp only [IsoFile.readFile, if_neg hno, if_neg hno2, heff, if_neg hno3, htn]
    · exact fileReadAt_length _ _ _ (by omega)

/-- Witness for C5 at a concrete region: region `[1, 1+3)` of the container
`[1,2,3,4]`, read at offset 1 with count 2 returns bytes `[3,4]`. -/
theorem c5_read_semantics_witness :
    IsoFile.readFile [1,2,3,4] 1 3 1 (some 2) = .ok [3,4] := by
  have h := ((c5_read_semantics [1,2,3,4] 1 3 1 (by decide)).2.1 2
    (by decide) (by decide) (by decide)).2 (by decide)
  simpa [fileReadAt] using h.1

/-- C10: a read or a write at `localOffset` equal to the region extent fails
`IndexError` even for zero bytes, and a region of extent 0 can never be
read, whatever the count. -/
theorem c10_extent_boundary (c : List Nat) (fileOffset fileSize : Nat)
    (data : List Nat) (count : Option Int) :
    IsoFile.readFile c fileOffset fileSize (fileSize : Int) count = .error .indexError
    ∧ IsoFile.writeFile c fileOffset fileSize (fileSize : Int) data = .error .indexError
    ∧ (∀ offset : Int, ∀ count2 : Option Int,
        IsoFile.readFile c fileOffset 0 offset count2 = .error .indexError) := by
  refine ⟨?_, ?_, ?_⟩
  · by_cases h : (fileSize : Int) < 0
    · simp [IsoFile.readFile, h]
    · simp [IsoFile.readFile, h]
  · by_cases h : (fileSize : Int) < 0
    · simp [IsoFile.writeFile, h]
    · simp [IsoFile.writeFile, h]
  · intro offset count2
    by_cases h : offset < 0
    · simp [IsoFile.readFile, h]
    · have h2 : ((0 : Nat) : Int) ≤ offset := by omega
      simp [IsoFile.readFile, h, h2]

/-- C2: the write logic the wrapper's `write` body delegates to
(`IsoFile._writeFile` at the wrapper's cursor) fails `IndexError` exactly
when `localOffset < 0` or `localOffset ≥ fileSize`, fails `ValueError`
exactly when `localOffset + len(data) > fileSize`, and otherwise writes and
returns the number of bytes written without changing the container's length
(the region can never grow or shrink). In the source the method header
`def write(data):` lacks `self`, so in Python every call dies with a
`TypeError` before this logic can run; this theorem is about the body as
written. -/
theorem c2_write_semantics (c : List Nat) (fileOffset fileSize : Nat) (offset : Int)
    (data : List Nat) (hreg : fileOffset + fileSize ≤ c.length) :
    (IsoFile.writeFile c fileOffset fileSize offset data = .error .indexError ↔
      (offset < 0 ∨ (fileSize : Int) ≤ offset))
    ∧ (0 ≤ offset → offset < (fileSize : Int) →
        ((IsoFile.writeFile c fileOffset fileSize offset data = .error .valueError ↔
          (fileSize : Int) < offset + data.length)
        ∧ (offset + data.length ≤ (fileSize : Int) →
            IsoFile.writeFile c fileOffset fileSize offset data =
              .ok (fileWriteAt c (fileOffset + offset.toNat) data, data.length)
            ∧ (fileWriteAt c (fileOffset + offset.toNat) data).length = c.length))) := by
  constructor
  · by_cases h1 : offset < 0
    · simp [IsoFile.writeFile, h1]
    · by_cases h2 : (fileSize : Int) ≤ offset
      · simp [IsoFile.writeFile, h1, h2]
      · simp only [IsoFile.writeFile, if_neg h1, if_neg h2]
        constructor
        · intro h
          exfalso
          revert h
          split <;> simp
        · intro h
          omega
  · intro h0 h1
    have hno : ¬ offset < 0 := by omega
    have hno2 : ¬ (fileSize : Int) ≤ offset := by omega
    constructor
    · simp only [IsoFile.writeFile, if_neg hno, if_neg hno2]
      constructor
      · intro h
        by_contra hc
        rw [if_neg hc] at h
        exact Except.noConfusion h
      · intro h
        rw [if_pos h]
    · intro hle
      have hno3 : ¬ (fileSize : Int) < offset + data.length := by omega
      refine ⟨by simp only [IsoFile.writeFile, if_neg hno, if_neg hno2, if_neg hno3], ?_⟩
      exact fileWriteAt_length _ _ _ (by omega)

/-- Witness for C2 at a concrete region: region `[1, 1+3)` of `[1,2,3,4]`,
writing `[7,8]` at offset 1 succeeds with 2 bytes written and an unchanged
container length. -/
theorem c2_write_semantics_witness :
    IsoFile.writeFile [1,2,3,4] 1 3 1 [7,8] = .ok ([1,2,7,8], 2) := by
  have h := ((c2_write_semantics [1,2,3,4] 1 3 1 [7,8] (by decide)).2
    (by decide) (by decide)).2 (by decide)
  simpa [fileWriteAt] using h.1

/-- Counterexample to C4 as stated: for the region `[0, 0+1)` of the
container `[0,0]`, the offset `o = 1` and the empty data `b = []` satisfy
the claim's side conditions `0 ≤ o` and `o + len(b) ≤ N`, yet
write-then-read raises `IndexError` (the write already fails the
`offset >= fileSize` check) instead of returning `b`. -/
theorem c4_roundtrip_counterexample :
    (0 : Int) ≤ 1 ∧ (1 : Int) + (([] : List Nat)).length ≤ (1 : Nat)
    ∧ IsoFile.writeThenRead [0,0] 0 1 1 [] = .error .indexError := by
  refine ⟨by decide, by decide, by decide⟩

/-- C4 (amended): the round-trip holds once `o < N` is required as well:
writing `b` at offset `o` of a region of extent `N` with `0 ≤ o < N` and
`o + len(b) ≤ N` and then reading `len(b)` bytes at `o` returns exactly
`b`. (`hreg` is the registry invariant `offset + size ≤ container size` of
every registered file.) -/
theorem c4_roundtrip (c : List Nat) (fileOffset fileSize : Nat) (offset : Int)
    (data : List Nat) (h0 : 0 ≤ offset) (h1 : offset < (fileSize : Int))
    (h2 : offset + data.length ≤ (fileSize : Int))
    (hreg : fileOffset + fileSize ≤ c.length) :
    IsoFile.writeThenRead c fileOffset fileSize offset data = .ok data := by
  have hno : ¬ offset < 0 := by omega
  have hno2 : ¬ (fileSize : Int) ≤ offset := by omega
  have hno3 : ¬ (fileSize : Int) < offset + data.length := by omega
  have heff : IsoFile.effCount fileSize offset (some (data.length : Int)) =
      (data.length : Int) := by
    simp [IsoFile.effCount]
  have hcast : ((data.length : Int)).toNat = data.length := by omega
  simp only [IsoFile.writeThenRead, IsoFile.writeFile, if_neg hno, if_neg hno2,
    if_neg hno3, IsoFile.readFile, heff, hcast]
  rw [fileWriteAt_readAt _ _ _ (by omega)]

/-- Witness for C4: writing `[5]` at offset 0 of the region `[0, 0+2)` of
`[9,9,9]` and reading one byte back returns `[5]`. -/
theorem c4_roundtrip_witness :
    IsoFile.writeThenRead [9,9,9] 0 2 0 [5] = .ok [5] :=
  c4_roundtrip [9,9,9] 0 2 0 [5] (by decide) (by decide) (by decide) (by decide)

/-- C7: a failed wrapper read or write leaves the cursor (indeed the whole
wrapper state) exactly as it was; a successful read advances the cursor by
exactly the number of bytes read, and a successful write advances it by
exactly the number of bytes written. -/
theorem c7_cursor_discipline (c : List Nat) (w : IsoInternalFileWrapper) :
    (∀ size e, (IsoInternalFileWrapper.read c w size).1 = .error e →
      (IsoInternalFileWrapper.read c w size).2 = w)
    ∧ (∀ size data, (IsoInternalFileWrapper.read c w size).1 = .ok data →
        (IsoInternalFileWrapper.read c w size).2 =
          { w with cursor := w.cursor + data.length })
    ∧ (∀ data e, (IsoInternalFileWrapper.write c w data).1 = .error e →
        (IsoInternalFileWrapper.write c w data).2 = w)
    ∧ (∀ data ret, (IsoInternalFileWrapper.write c w data).1 = .ok ret →
        ret.1 = data.length ∧ (IsoInternalFileWrapper.write c w data).2 =
          { w with cursor := w.cursor + ret.1 }) := by
  refine ⟨?_, ?_, ?_, ?_⟩
  · intro size e
    unfold IsoInternalFileWrapper.read
    cases IsoFile.readFile c w.offset w.size w.cursor size <;> simp
  · intro size data
    unfold IsoInternalFileWrapper.read
    cases IsoFile.readFile c w.offset w.size w.cursor size with
    | error e => simp
    | ok d =>
      simp only
      intro h
      cases h
      rfl
  · intro data e
    unfold IsoInternalFileWrapper.write
    cases IsoFile.writeFile c w.offset w.size w.cursor data <;> simp
  · intro data ret
    unfold IsoInternalFileWrapper.write
    cases hw : IsoFile.writeFile c w.offset w.size w.cursor data with
    | error e => simp
    | ok p =>
      simp only
      intro h
      cases h
      have : p.2 = data.length := by
        revert hw
        unfold IsoFile.writeFile
        split
        · intro h
          exact Except.noConfusion h
        · split
          · intro h
            exact Except.noConfusion h
          · split
            · intro h
              exact Except.noConfusion h
            · intro h
              cases h
              rfl
      constructor
      · exact this
      · rw [this]

/-- Witness for C7: a wrapper over a region of extent 3 with its cursor
already at 5 fails the read with `IndexError` and keeps its state. -/
theorem c7_cursor_discipline_witness :
    (IsoInternalFileWrapper.read [1,2,3]
      { cursor := 5, offset := 0, size := 3 } none).2 =
      { cursor := 5, offset := 0, size := 3 } :=
  (c7_cursor_discipline [1,2,3] { cursor := 5, offset := 0, size := 3 }).1
    none .indexError (by decide)

/-- A decoded DOL layout whose file-offset order and memory order disagree:
three text sections at file offsets 0x100, 0x110, 0x200 loaded to memory
addresses 0x1000, 0x1010, 0x500. By file offset the order is T0, T1, T2; by
memory address it is T2, T0, T1. -/
def c1dol : DolFile :=
  DolFile.make [0x100, 0x110, 0x200, 0, 0, 0] [0x1000, 0x1010, 0x500, 0, 0, 0]
    [0x10, 0x10, 0x10, 0, 0, 0] [0,0,0,0,0,0,0,0,0,0] [0,0,0,0,0,0,0,0,0,0]
    [0,0,0,0,0,0,0,0,0,0] 0 0 0

def c1T0 : DolFile.Section := DolFile.Section.make 0 .text 0x100 0x1000 0x10

def c1T1 : DolFile.Section := DolFile.Section.make 1 .text 0x110 0x1010 0x10

/-- C1: evaluation of `isMappedContiguous` on `c1dol` at the range
`[0x105, 0x118)`. The range starts in T0 and ends in T1; the next section
after T0 is T1 both by file offset (`sectionsDolOrder[0+1]`) and by memory
address (`sectionsMemOrder[1+1]`), and T1 starts exactly where T0 ends in
both spaces (`isBefore`), so by the claim the function must recurse (and
that recursion, from T1's file offset, returns `true`). The code instead
looks the memory successor up in `sectionsDolOrder` (dolfile.py line 236),
obtains T2 ≠ T1, and returns `false`. -/
theorem c1_memnext_divergence :
    c1dol.getSectionByDolOffset 0x105 = some c1T0
    ∧ ((c1T0.endDolOffset : Int) < 0x118)
    ∧ DolFile.listIndex c1dol.sectionsDolOrder c1T0 = .ok 0
    ∧ DolFile.listIndex c1dol.sectionsMemOrder c1T0 = .ok 1
    ∧ c1dol.sectionsDolOrder[0 + 1]? = some c1T1
    ∧ c1dol.sectionsMemOrder[1 + 1]? = some c1T1
    ∧ c1T0.isBefore c1T1 = true
    ∧ DolFile.isMappedContiguous c1dol 5 (c1T1.dolOffset : Int) 0x118 = .ok true
    ∧ DolFile.isMappedContiguous c1dol 5 0x105 0x118 = .ok false := by
  decide

/-- C6: monotonicity of `isMappedContiguous`. If a range `[a, b)` is mapped
contiguously, then so is every subrange `[a', b')` with `a ≤ a'`, `b' ≤ b`
whose start lies in the same containing section. Holds for every layout and
every fuel bound. -/
theorem c6_contiguity_monotone (d : DolFile) :
    ∀ (fuel : Nat) (a b a' b' : Int),
    DolFile.isMappedContiguous d fuel a b = .ok true →
    d.getSectionByDolOffset a' = d.getSectionByDolOffset a →
    a ≤ a' → b' ≤ b →
    DolFile.isMappedContiguous d fuel a' b' = .ok true := by
  intro fuel
  induction fuel with
  | zero =>
    intro a b a' b' htrue _ _ _
    exact absurd htrue (by simp [DolFile.isMappedContiguous])
  | succ n ih =>
    intro a b a' b' htrue hsec ha hb
    rw [DolFile.isMappedContiguous] at htrue ⊢
    rw [hsec]
    cases hfind : d.getSectionByDolOffset a with
    | none =>
      rw [hfind] at htrue
      simp only [] at htrue
      exact Except.noConfusion htrue
    | some s =>
      rw [hfind] at htrue
      simp only [] at htrue ⊢
      by_cases hend : b' ≤ (s.endDolOffset : Int)
      · rw [if_pos hend]
      · rw [if_neg hend]
        have hbend : ¬ b ≤ (s.endDolOffset : Int) := by omega
        rw [if_neg hbend] at htrue
        cases hdi : DolFile.listIndex d.sectionsDolOrder s with
        | error e =>
          rw [hdi] at htrue
          simp only [] at htrue
          exact Except.noConfusion htrue
        | ok dolIndex =>
          cases hmi : DolFile.listIndex d.sectionsMemOrder s with
          | error e =>
            rw [hdi, hmi] at htrue
            simp only [] at htrue
            exact Except.noConfusion htrue
          | ok memIndex =>
            rw [hdi, hmi] at htrue
            simp only [] at htrue ⊢
            cases hdn : d.sectionsDolOrder[dolIndex + 1]? with
            | none =>
              rw [hdn] at htrue
              simp only [] at htrue
              exact Except.noConfusion htrue
            | some dolNext =>
              rw [hdn] at htrue
              simp only [] at htrue ⊢
              cases hmn : d.sectionsDolOrder[memIndex + 1]? with
              | none =>
                rw [hmn] at htrue
                simp only [] at htrue
                exact Except.noConfusion htrue
              | some memNext =>
                rw [hmn] at htrue
                simp only [] at htrue ⊢
                by_cases hcond : dolNext = memNext ∧ s.isBefore dolNext = true
                · rw [if_pos hcond] at htrue
                  rw [if_pos hcond]
                  exact ih (dolNext.dolOffset : Int) b (dolNext.dolOffset : Int) b'
                    htrue rfl le_rfl hb
                · rw [if_neg hcond] at htrue
                  exact absurd htrue (by simp)

/-- Witness for C6 on a one-section layout: `[0x105, 0x10c)` is contiguous
because `[0x104, 0x10e)` is, both starting inside the single section. -/
theorem c6_contiguity_monotone_witness :
    DolFile.isMappedContiguous
      (DolFile.make [0x100, 0, 0, 0, 0, 0] [0x1000, 0, 0, 0, 0, 0]
        [0x10, 0, 0, 0, 0, 0] [0,0,0,0,0,0,0,0,0,0] [0,0,0,0,0,0,0,0,0,0]
        [0,0,0,0,0,0,0,0,0,0] 0 0 0) 3 0x105 0x10c = .ok true :=
  c6_contiguity_monotone
    (DolFile.make [0x100, 0, 0, 0, 0, 0] [0x1000, 0, 0, 0, 0, 0]
      [0x10, 0, 0, 0, 0, 0] [0,0,0,0,0,0,0,0,0,0] [0,0,0,0,0,0,0,0,0,0]
      [0,0,0,0,0,0,0,0,0,0] 0 0 0) 3 0x104 0x10e 0x105 0x10c
    (by decide) (by decide) (by decide) (by decide)

/-- A concrete container holding an FST at offset 0: the root (4 entries),
a directory `d` spanning table indices 1..2 (its length field is 3, the
index one past its subtree), a file `a` (offset 100, size 5) inside `d`,
and a top-level file `b` (offset 200, size 7) at index 3, followed by the
string table `"d\x00a\x00b\x00"`. -/
def c3iso : List Nat :=
  [1,0,0,0, 0,0,0,0, 0,0,0,4,
   1,0,0,0, 0,0,0,0, 0,0,0,3,
   0,0,0,2, 0,0,0,100, 0,0,0,5,
   0,0,0,4, 0,0,0,200, 0,0,0,7,
   100,0,97,0,98,0]

/-- C3: decoding `c3iso` with the code as written. For the directory `d` at
index 1 with subtree bound 3, `_readDirectory` returns its `length` field 3
(the absolute bound) rather than the 2 table indices the subtree consumed,
so the root caller advances `i` from 1 to 4 and never visits entry 3: the
registry ends up holding only `d/a` and the top-level file `b` is silently
dropped. Under the claim the caller would resume at index 3 and `b`
(offset 200, size 7) would be registered. -/
theorem c3_directory_return_value :
    IsoFile.readFst c3iso 0 [] 100 = .ok ([([100,47,97],(100,5))], 4)
    ∧ Registry.get [([100,47,97],(100,5))] [98] = none := by
  constructor
  · decide
  · decide

/-- A concrete container holding an FST at offset 0 whose root claims 2
entries but whose single directory (index 1, empty name) declares the
subtree bound 4, an index reference beyond the entry count: indices 2 and 3
lie past the table, inside the string table. -/
def c8iso : List Nat :=
  [1,0,0,0, 0,0,0,0, 0,0,0,2,
   1,0,0,1, 0,0,0,0, 0,0,0,4,
   0,0,0,4, 0,0,0,50, 0,0,0,5,
   0,0,0,2, 0,0,0,60, 0,0,0,6]

/-- Counterexample to C8: `c8iso` declares `numFstEntries = 2` in its root
entry, yet its directory at index 1 carries the subtree bound 4 — a
table-index reference beyond the entry count — and decoding returns a
successful result instead of raising the claimed format error. -/
theorem c8_no_format_error :
    IsoFile.readU32BE c8iso (0 + 8) = .ok 2
    ∧ IsoFile.readFstEntry c8iso (0xC * 1) = .ok (1, 1, 0, 4)
    ∧ IsoFile.readFst c8iso 0 [] 100 = .ok ([([47],(60,6))], 2) := by
  refine ⟨by decide, by decide, by decide⟩

/-- C8 (amended): an out-of-range table-index reference is not validated:
decoding `c8iso` succeeds, and the bytes at the computed entry positions
beyond the table (here inside the string table) are decoded as entries —
the registry's single entry `(60, 6)` is read from table index 3, past
`numFstEntries = 2`. -/
theorem c8_out_of_range_decoded :
    IsoFile.readFstEntry c8iso (0xC * 3) = .ok (0, 2, 60, 6)
    ∧ IsoFile.readFst c8iso 0 [] 100 = .ok ([([47],(60,6))], 2)
    ∧ Registry.get [([47],(60,6))] [47] = some (60, 6) := by
  refine ⟨by decide, by decide, by decide⟩

/-- A concrete container holding an FST at offset 0 with two file entries
that decode to the same path `a`: index 1 with `(10, 1)` and index 2 with
`(20, 2)`. -/
def c9iso : List Nat :=
  [1,0,0,0, 0,0,0,0, 0,0,0,3,
   0,0,0,0, 0,0,0,10, 0,0,0,1,
   0,0,0,0, 0,0,0,20, 0,0,0,2,
   97,0]

/-- C9: duplicate paths are not rejected and the later entry wins: decoding
`c9iso` succeeds and the registry maps `a` to the later `(20, 2)`, the
earlier `(10, 1)` having been overwritten in place; in general an
`OrderedDict` assignment makes a later value for the same key the one
`files[path]` returns. -/
theorem c9_duplicate_path_overwrites :
    IsoFile.readFst c9iso 0 [] 100 = .ok ([([97],(20,2))], 3)
    ∧ Registry.get [([97],(20,2))] [97] = some (20, 2)
    ∧ (∀ (r : Registry) (k : List Nat) (v : Nat × Nat),
        Registry.get (Registry.set r k v) k = some v) := by
  refine ⟨by decide, by decide, ?_⟩
  intro r k v
  induction r with
  | nil => simp [Registry.set, Registry.get]
  | cons p rest ih =>
    by_cases h : p.1 = k
    · simp [Registry.set, Registry.get, h]
    · simp [Registry.set, Registry.get, h, ih]
